import Mathlib

/-!
Verification development for the Scrapers repository.

The repository is a collection of browser-automation scripts that log into
third-party educational platforms, scrape per-student progress metrics from
rendered pages, and write the results to a Supabase (relational) datastore.

This file gives a shallow embedding of the data model and the operations of
the two main scrapers:

* the Membean scraper (`Scrapers/newmembeanscraper/scraper.js`, together with
  `studentsManager.js` and the standalone upload script `upload-to-supabase.js`);
* the AlphaRead scraper (`Scrapers/alphareadscraper/multi-email-scraper.js`).

Browser interaction (navigation, waiting, clicking) is abstracted as a
state-threaded oracle: a function `σ → input → σ × outcome` standing for the
effect of the per-student browser steps.  Everything that is pure string or
list manipulation in the JavaScript source (filters, maps, regex field
extraction, name formatting, record transformation) is translated directly.
The datastore is modelled as a list of rows; `insert` appends and `upsert`
replaces rows with a matching conflict key.
-/

namespace Scrapers

/-! ## JavaScript-style primitives -/

/-- JavaScript truthiness of a string: the empty string is falsy. -/
def jsTruthy (s : String) : Bool := s ≠ ""

/-- JavaScript truthiness of an optional string field: `undefined`/`null` and
the empty string are falsy. -/
def optTruthy : Option String → Bool
  | none => false
  | some s => s ≠ ""

/-- JavaScript `x || null` on an optional string field: a falsy value
(absent or empty string) becomes `null`. -/
def jsOrNull : Option String → Option String
  | none => none
  | some s => if s = "" then none else some s

/-- `String.prototype.includes`. -/
def strIncludes (hay needle : String) : Bool :=
  let h := hay.data
  let n := needle.data
  (List.range (h.length + 1)).any (fun i => (h.drop i).take n.length = n)

/-- `String.prototype.padStart(n, c)`. -/
def jsPadStart (s : String) (n : Nat) (c : Char) : String :=
  if s.length ≥ n then s else String.mk (List.replicate (n - s.length) c) ++ s

/-- The whitespace characters matched by JavaScript `\s` (the ones that can
occur in the scraped text). -/
def jsSpace (c : Char) : Bool :=
  c = ' ' || c = '\t' || c = '\n' || c = '\r' || c = '\x0b' || c = '\x0c' || c = '\xA0'

/-- `String.prototype.trim`: drop leading and trailing whitespace. -/
def jsTrim (s : String) : String :=
  String.mk (((s.data.dropWhile jsSpace).reverse.dropWhile jsSpace).reverse)

/-- Worker for `jsSplitOn`: scan left to right, splitting at each
non-overlapping occurrence of the (non-empty) separator.  The fuel bounds
the number of steps; every step consumes at least one character, so
`length + 1` fuel always suffices. -/
def splitOnFuel (sep : List Char) : Nat → List Char → List Char → List (List Char)
  | 0, _, acc => [acc.reverse]
  | _ + 1, [], acc => [acc.reverse]
  | fuel + 1, c :: cs, acc =>
    if (c :: cs).take sep.length = sep then
      acc.reverse :: splitOnFuel sep fuel ((c :: cs).drop sep.length) []
    else
      splitOnFuel sep fuel cs (c :: acc)

/-- `String.prototype.split(sep)` for a non-empty separator string:
`"a,,b".split(",") = ["a", "", "b"]`, `"".split(",") = [""]`. -/
def jsSplitOn (s sep : String) : List String :=
  if sep.length = 0 then [s]
  else (splitOnFuel sep.data (s.data.length + 1) s.data []).map String.mk

/-- `String.prototype.startsWith`. -/
def jsStartsWith (s pre : String) : Bool :=
  s.data.take pre.data.length = pre.data

/-- `String.prototype.toLowerCase` (on the characters that occur here). -/
def jsToLower (s : String) : String :=
  String.mk (s.data.map Char.toLower)

/-- The natural number denoted by a list of decimal digits. -/
def digitsToNat (cs : List Char) : Nat :=
  cs.foldl (fun n c => n * 10 + (c.toNat - '0'.toNat)) 0


/-! ## Membean scraper: data model

`scrapeStudentData` (scraper.js:270) produces an object with `url`,
`timestamp`, `studentName` and `recentTraining`; the error paths of
`scrapeAllStudents` (scraper.js:386-405) produce records with only
`studentName`, `error` and `timestamp`.  Fields that can be absent
(`undefined`) are `Option`s. -/

namespace Membean

/-- One row of the Recent Training table (scraper.js:298-302). -/
structure TrainingSession where
  startedAt : String
  length : String
  accuracy : String
deriving Repr, DecidableEq

/-- A per-student record accumulated in `this.allStudentData`. -/
structure StudentRecord where
  studentName : String
  url : Option String
  timestamp : String
  recentTraining : Option (List TrainingSession)
  error : Option String
deriving Repr, DecidableEq

/-- A row of the `membean_students` table as built by `uploadToSupabase`
(scraper.js:433-438): `url`, `timestamp`, `student_name`, `recent_training`. -/
structure MembeanRow where
  url : Option String
  timestamp : String
  student_name : String
  recent_training : List TrainingSession
deriving Repr, DecidableEq

/-- The `membean_students` table. -/
abbrev MembeanDB := List MembeanRow

/-- Supabase `.insert(rows)`: plain insert, appends the new rows
(scraper.js:447-449, upload-to-supabase.js:64-66). -/
def dbInsertRows (db : MembeanDB) (rows : List MembeanRow) : MembeanDB :=
  db ++ rows

/-- The filter-and-map transformation of `uploadToSupabase`
(scraper.js:431-438): keep records with a truthy `studentName` and a falsy
`error`, and project them to `membean_students` rows
(`recentTraining || []`). -/
def membeanTransform (studentsData : List StudentRecord) : List MembeanRow :=
  (studentsData.filter (fun s => jsTruthy s.studentName && !optTruthy s.error)).map
    (fun s =>
      { url := s.url
        timestamp := s.timestamp
        student_name := s.studentName
        recent_training := s.recentTraining.getD [] })

/-- `MembeanScraper.uploadToSupabase` (scraper.js:417-473): transform the
scraped records and `.insert` them; when no valid records remain the insert
is skipped (the function returns `false` before reaching the database). -/
def uploadToSupabase (db : MembeanDB) (studentsData : List StudentRecord) : MembeanDB :=
  let supabaseData := membeanTransform studentsData
  if supabaseData.isEmpty then db else dbInsertRows db supabaseData

/-- The transformation of the standalone upload script `upload-to-supabase.js`
(lines 45-52); it is the same filter-and-map as in the scraper. -/
def part003Transform (studentsData : List StudentRecord) : List MembeanRow :=
  (studentsData.filter (fun s => jsTruthy s.studentName && !optTruthy s.error)).map
    (fun s =>
      { url := s.url
        timestamp := s.timestamp
        student_name := s.studentName
        recent_training := s.recentTraining.getD [] })

/-- `uploadStudentData` of `upload-to-supabase.js` (lines 25-94): transform
the file contents and `.insert` them into `membean_students`; with no valid
records it returns before the insert. -/
def uploadStudentData (db : MembeanDB) (studentsData : List StudentRecord) : MembeanDB :=
  let supabaseData := part003Transform studentsData
  if supabaseData.isEmpty then db else dbInsertRows db supabaseData

/-! ## Membean scraper: per-student loop

`scrapeAllStudents` (scraper.js:348-415) iterates over the student names.
For each name it navigates to the students tab, clicks the student and
scrapes; that browser interaction is the oracle `step`.  Its outcome is
either a scraped record, "student not found", or a thrown error. -/

/-- Outcome of the browser interaction for one student. -/
inductive StepResult where
  | found (data : StudentRecord)
  | notFound
  | failure (msg : String)
deriving Repr

/-- The record pushed for a student that was not found
(scraper.js:388-392). -/
def notFoundRecord (name ts : String) : StudentRecord :=
  { studentName := name, url := none, timestamp := ts
    recentTraining := none, error := some "not_found" }

/-- The record pushed when scraping a student throws
(scraper.js:397-401). -/
def errorRecord (name msg ts : String) : StudentRecord :=
  { studentName := name, url := none, timestamp := ts
    recentTraining := none, error := some msg }

variable {σ : Type}

/-- One iteration of the `scrapeAllStudents` loop body (scraper.js:368-406):
run the browser steps for the student and push exactly one record —
the scraped data, a `not_found` record, or an error record. -/
def processStudent (step : σ → String → σ × StepResult) (now : σ → String)
    (s : σ) (name : String) : σ × StudentRecord :=
  match step s name with
  | (s', .found data) => (s', data)
  | (s', .notFound) => (s', notFoundRecord name (now s'))
  | (s', .failure msg) => (s', errorRecord name msg (now s'))

/-- The `scrapeAllStudents` loop (scraper.js:368-406): process the students
in the order of the list, accumulating `this.allStudentData`. -/
def scrapeAllStudents (step : σ → String → σ × StepResult) (now : σ → String) :
    σ → List String → σ × List StudentRecord
  | s, [] => (s, [])
  | s, name :: rest =>
    let p := processStudent step now s name
    let q := scrapeAllStudents step now p.1 rest
    (q.1, p.2 :: q.2)

/-! ## Students manager (`studentsManager.js`) -/

/-- Transformation of a student name fetched from Supabase from
"First Last" to "Last, First" (studentsManager.js:44-58). -/
def transformStudentName (raw : String) : String :=
  let name := jsTrim raw
  let parts := jsSplitOn name " "
  if parts.length ≥ 2 then
    let lastName := parts.getLastD ""
    let firstName := " ".intercalate parts.dropLast
    lastName ++ ", " ++ firstName
  else
    name

/-- A row of the `students` table (only `name` is selected). -/
structure SupaStudent where
  name : String
deriving Repr, DecidableEq

/-- `readStudentsFromSupabase` (studentsManager.js:25-67).  The input models
the state of the configured client: `.error` is a failed fetch (the catch
branches return `[]`), `.ok` is the fetched rows.  Every name is transformed
to "Last, First" format. -/
def readStudentsFromSupabase : Except String (List SupaStudent) → List String
  | .error _ => []
  | .ok rows => rows.map (fun r => transformStudentName r.name)

/-- The contents of a local configuration file: missing, unreadable/invalid
(the catch branches return `[]`), or its parsed content. -/
inductive FileSource (α : Type) where
  | missing
  | failure (msg : String)
  | content (data : α)
deriving Repr

/-- An entry of `students.json`. -/
structure JsonStudent where
  name : String
  enabled : Bool
  notes : String
deriving Repr, DecidableEq

/-- `readStudentsFromTXT` (studentsManager.js:94-112): split the file on
newlines, trim, drop empty lines and `#` comments, and drop the two example
names. -/
def readStudentsFromTXT : FileSource String → List String
  | .missing => []
  | .failure _ => []
  | .content data =>
    ((jsSplitOn data "\n").map jsTrim
      |>.filter (fun line => jsTruthy line && !jsStartsWith line "#")
      |>.filter (fun line => line ≠ "Student Name 1" && line ≠ "Student Name 2"))

/-- `readStudentsFromJSON` (studentsManager.js:73-88): the enabled entries of
the parsed configuration. -/
def readStudentsFromJSON : FileSource (List JsonStudent) → List JsonStudent
  | .missing => []
  | .failure _ => []
  | .content students => students.filter (fun s => s.enabled)

/-- `getEnabledStudents` (studentsManager.js:118-148): Supabase first (only
when the client is configured, `supabase = some _`), then `students.txt`,
then the enabled names of `students.json`, then the empty list. -/
def getEnabledStudents (supabase : Option (Except String (List SupaStudent)))
    (txt : FileSource String) (json : FileSource (List JsonStudent)) : List String :=
  let fallback :=
    let txtStudents := readStudentsFromTXT txt
    if txtStudents.length > 0 then txtStudents
    else
      let jsonStudents := readStudentsFromJSON json
      if jsonStudents.length > 0 then jsonStudents.map (fun s => s.name)
      else []
  match supabase with
  | some db =>
    let supabaseStudents := readStudentsFromSupabase db
    if supabaseStudents.length > 0 then supabaseStudents else fallback
  | none => fallback

end Membean

/-! ## AlphaRead scraper (`multi-email-scraper.js`) -/

namespace AlphaRead

/-! ### A small backtracking regex engine

The field extraction of `extractStudentDetailData`
(multi-email-scraper.js:353-405) runs JavaScript regular expressions against
the page text.  Each of those patterns is a sequence of literals, character
classes with a repetition range (greedy or lazy), an alternation of literals
with the end anchor, and a single capture group.  The engine below executes
such patterns with the backtracking order of the JavaScript engine: leftmost
starting position first, and for each character class the preferred
repetition counts first (longest first when greedy, shortest first when
lazy). -/

/-- An arm of an alternation group such as `(?:Avg\.|$)`. -/
inductive Atom where
  | lit (s : String)
  | anchorEnd
deriving Repr

/-- One token of a pattern: a literal, a character class with repetition
bounds (`maxRep = none` is unbounded) and greediness, an alternation of
atoms, or the end anchor. -/
inductive Tok where
  | lit (s : String)
  | cls (p : Char → Bool) (minRep : Nat) (maxRep : Option Nat) (lazyRep : Bool)
  | alt (arms : List Atom)
  | anchorEnd

/-- Does the literal `s` occur at position `i` of `text`? -/
def litAt (text : List Char) (i : Nat) (s : String) : Bool :=
  (text.drop i).take s.length = s.data

/-- The end position of an alternation arm matched at position `i`. -/
def atomEnds (text : List Char) (i : Nat) : Atom → Option Nat
  | .lit s => if litAt text i s then some (i + s.length) else none
  | .anchorEnd => if i = text.length then some i else none

/-- Length of the longest prefix of `cs` (capped at the first argument)
whose characters all satisfy `p`. -/
def runLen (p : Char → Bool) : Nat → List Char → Nat
  | 0, _ => 0
  | _, [] => 0
  | cap + 1, c :: cs => if p c then runLen p cap cs + 1 else 0

/-- The repetition counts a class token tries, in backtracking preference
order: ascending when lazy, descending when greedy. -/
def clsCandidates (mn mx : Nat) (lazyRep : Bool) : List Nat :=
  if mx < mn then []
  else
    let ks := (List.range (mx - mn + 1)).map (fun k => k + mn)
    if lazyRep then ks else ks.reverse

/-- All end positions at which the token sequence can match starting at
position `i`, in backtracking preference order (duplicates possible). -/
def allMatchEnds (text : List Char) : List Tok → Nat → List Nat
  | [], i => [i]
  | .lit s :: rest, i =>
    if litAt text i s then allMatchEnds text rest (i + s.length) else []
  | .anchorEnd :: rest, i =>
    if i = text.length then allMatchEnds text rest i else []
  | .alt arms :: rest, i =>
    arms.flatMap (fun a =>
      match atomEnds text i a with
      | some j => allMatchEnds text rest j
      | none => [])
  | .cls p mn mx lz :: rest, i =>
    let cap := match mx with
      | none => text.length - i
      | some m => min m (text.length - i)
    let r := runLen p cap (text.drop i)
    (clsCandidates mn r lz).flatMap (fun k => allMatchEnds text rest (i + k))

/-- A pattern with one capture group: the tokens before the group, the
tokens of the group, and the tokens after it. -/
structure JsRegex where
  pre : List Tok
  cap : List Tok
  post : List Tok

/-- Try to match the pattern at starting position `i`; on success return the
captured characters and the end position of the whole match, for the first
`(preEnd, capEnd, postEnd)` triple in backtracking preference order. -/
def execAt (text : List Char) (re : JsRegex) (i : Nat) : Option (List Char × Nat) :=
  (allMatchEnds text re.pre i).findSome? fun preEnd =>
    (allMatchEnds text re.cap preEnd).findSome? fun capEnd =>
      (allMatchEnds text re.post capEnd).findSome? fun postEnd =>
        some ((text.drop preEnd).take (capEnd - preEnd), postEnd)

/-- Leftmost match at or after `start`: the starting position, the capture,
and the end of the whole match. -/
def jsMatchFrom (re : JsRegex) (text : List Char) (start : Nat) :
    Option (Nat × List Char × Nat) :=
  ((List.range (text.length + 1 - start)).map (fun k => k + start)).findSome?
    (fun i => (execAt text re i).map (fun ce => (i, ce.1, ce.2)))

/-- `text.match(re)?.[1]`: the capture of the leftmost match. -/
def jsMatch1 (re : JsRegex) (s : String) : Option String :=
  (jsMatchFrom re s.data 0).map (fun m => String.mk m.2.1)

/-- Successive non-overlapping matches, as `text.match(re-with-g-flag)`;
an empty whole match advances the scan position by one. -/
def jsMatchAllAux (re : JsRegex) (text : List Char) : Nat → Nat → List String
  | 0, _ => []
  | fuel + 1, pos =>
    match jsMatchFrom re text pos with
    | none => []
    | some (i, cs, e) =>
      let next := if e ≤ i then i + 1 else e
      String.mk cs :: jsMatchAllAux re text fuel next

/-- `text.match(/.../g)` restricted to the capture of each match (for the
date pattern the capture is the whole match). -/
def jsMatchAll (re : JsRegex) (s : String) : List String :=
  jsMatchAllAux re s.data (s.length + 1) 0

/-! ### The extraction patterns (multi-email-scraper.js:353-405) -/

/-- `[A-Za-z\s\d]` -/
def alnumSpace (c : Char) : Bool := c.isAlpha || jsSpace c || c.isDigit

/-- `/(\d+)Grade Level/` -/
def gradeLevelRe : JsRegex :=
  { pre := [], cap := [.cls Char.isDigit 1 none false], post := [.lit "Grade Level"] }

/-- `/Grade Level(\d+)Reading Level/` -/
def readingLevelRe : JsRegex :=
  { pre := [.lit "Grade Level"], cap := [.cls Char.isDigit 1 none false]
    post := [.lit "Reading Level"] }

/-- `/([\d.]+%)Average Score/` -/
def averageScoreRe : JsRegex :=
  { pre := [], cap := [.cls (fun c => c.isDigit || c = '.') 1 none false, .lit "%"]
    post := [.lit "Average Score"] }

/-- `/Average Score(\d+)Sessions This Month/` -/
def sessionsMonthRe : JsRegex :=
  { pre := [.lit "Average Score"], cap := [.cls Char.isDigit 1 none false]
    post := [.lit "Sessions This Month"] }

/-- `/Sessions This Month(\d+)Total Sessions/` -/
def totalSessionsRe : JsRegex :=
  { pre := [.lit "Sessions This Month"], cap := [.cls Char.isDigit 1 none false]
    post := [.lit "Total Sessions"] }

/-- `/Total Sessions([\dhmsw ]+)Time Reading/` -/
def timeReadingRe : JsRegex :=
  { pre := [.lit "Total Sessions"]
    cap := [.cls (fun c => c.isDigit || c = 'h' || c = 'm' || c = 's' || c = 'w' || c = ' ') 1 none false]
    post := [.lit "Time Reading"] }

/-- `/Time Reading([\d.]+%)Success Rate/` -/
def successRateRe : JsRegex :=
  { pre := [.lit "Time Reading"]
    cap := [.cls (fun c => c.isDigit || c = '.') 1 none false, .lit "%"]
    post := [.lit "Success Rate"] }

/-- `/Last Active([A-Za-z\s\d]+?)(?:Avg\.|$)/` -/
def lastActiveRe1 : JsRegex :=
  { pre := [.lit "Last Active"], cap := [.cls alnumSpace 1 none true]
    post := [.alt [.lit "Avg.", .anchorEnd]] }

/-- `[A-Za-z]{3}\s+\d{1,2}`, the date-token pattern. -/
def dateToks : List Tok :=
  [.cls Char.isAlpha 3 (some 3) false, .cls jsSpace 1 none false,
   .cls Char.isDigit 1 (some 2) false]

/-- `/Last Active\s*([A-Za-z]{3}\s+\d{1,2})/` -/
def lastActiveRe2 : JsRegex :=
  { pre := [.lit "Last Active", .cls jsSpace 0 none false], cap := dateToks, post := [] }

/-- `/([A-Za-z]{3}\s+\d{1,2})\s*Last Active/` -/
def lastActiveRe3 : JsRegex :=
  { pre := [], cap := dateToks, post := [.cls jsSpace 0 none false, .lit "Last Active"] }

/-- `/Last Active[A-Za-z\s\d]*?(\d+m)\s*Avg\. Session Time/` -/
def avgSessionRe1 : JsRegex :=
  { pre := [.lit "Last Active", .cls alnumSpace 0 none true]
    cap := [.cls Char.isDigit 1 none false, .lit "m"]
    post := [.cls jsSpace 0 none false, .lit "Avg. Session Time"] }

/-- `/(\d+m)\s*Avg\. Session Time/` -/
def avgSessionRe2 : JsRegex :=
  { pre := [], cap := [.cls Char.isDigit 1 none false, .lit "m"]
    post := [.cls jsSpace 0 none false, .lit "Avg. Session Time"] }

/-- `/Current Course([\d\s\-A-Za-z()]+)(?:User PowerPath|$)/` -/
def currentCourseRe : JsRegex :=
  { pre := [.lit "Current Course"]
    cap := [.cls (fun c => c.isDigit || jsSpace c || c = '-' || c.isAlpha || c = '(' || c = ')') 1 none false]
    post := [.alt [.lit "User PowerPath", .anchorEnd]] }

/-- `/([A-Za-z]{3}\s+\d{1,2})/g`, the global date pattern of the
metric-container pass (multi-email-scraper.js:447). -/
def dateGlobalRe : JsRegex := { pre := [], cap := dateToks, post := [] }

/-- `/^([A-Za-z]{3}\s+\d{1,2})$/.test(text)` (multi-email-scraper.js:425). -/
def isDateToken (s : String) : Bool :=
  !(allMatchEnds s.data (dateToks ++ [Tok.anchorEnd]) 0).isEmpty

/-! ### Text-based profile extraction (multi-email-scraper.js:344-409) -/

/-- The ten structured profile fields. -/
structure Profile where
  gradeLevel : Option String
  readingLevel : Option String
  averageScore : Option String
  sessionsThisMonth : Option String
  totalSessions : Option String
  timeReading : Option String
  successRate : Option String
  lastActive : Option String
  avgSessionTime : Option String
  currentCourse : Option String
deriving Repr, DecidableEq

/-- The profile with every field `null`. -/
def Profile.empty : Profile :=
  { gradeLevel := none, readingLevel := none, averageScore := none
    sessionsThisMonth := none, totalSessions := none, timeReading := none
    successRate := none, lastActive := none, avgSessionTime := none
    currentCourse := none }

/-- The regex pass over `fullPageText` (multi-email-scraper.js:353-405),
including the fallback chains for `lastActive` and `avgSessionTime` and the
`.trim()` applied to `timeReading`, `lastActive` and `currentCourse`. -/
def textExtractedProfile (fullPageText : String) : Profile :=
  let lastActiveMatch :=
    match jsMatch1 lastActiveRe1 fullPageText with
    | some v => some v
    | none =>
      match jsMatch1 lastActiveRe2 fullPageText with
      | some v => some v
      | none => jsMatch1 lastActiveRe3 fullPageText
  let avgSessionMatch :=
    match jsMatch1 avgSessionRe1 fullPageText with
    | some v => some v
    | none => jsMatch1 avgSessionRe2 fullPageText
  { gradeLevel := jsMatch1 gradeLevelRe fullPageText
    readingLevel := jsMatch1 readingLevelRe fullPageText
    averageScore := jsMatch1 averageScoreRe fullPageText
    sessionsThisMonth := jsMatch1 sessionsMonthRe fullPageText
    totalSessions := jsMatch1 totalSessionsRe fullPageText
    timeReading := (jsMatch1 timeReadingRe fullPageText).map jsTrim
    successRate := jsMatch1 successRateRe fullPageText
    lastActive := lastActiveMatch.map jsTrim
    avgSessionTime := avgSessionMatch
    currentCourse := (jsMatch1 currentCourseRe fullPageText).map jsTrim }

/-! ### DOM model

The second extraction pass (multi-email-scraper.js:412-461) walks the DOM
rather than the flat page text.  A rendered page is a tree of elements and
text nodes; `textContent` concatenates the text nodes below a node, and
`document.querySelectorAll` enumerates elements in document order
(preorder). -/

/-- A DOM node: an element with a tag and children, or a text node. -/
inductive Dom where
  | elem (tag : String) (kids : List Dom)
  | txt (s : String)

mutual

/-- `node.textContent`. -/
def textContent : Dom → String
  | .txt s => s
  | .elem _ kids => textContentList kids

/-- `textContent` of a list of siblings, concatenated. -/
def textContentList : List Dom → String
  | [] => ""
  | d :: ds => textContent d ++ textContentList ds

end

/-- Is the node an element (as opposed to a text node)? -/
def isElem : Dom → Bool
  | .elem _ _ => true
  | .txt _ => false

/-- `el.children`: the element children only. -/
def elemChildren (kids : List Dom) : List Dom := kids.filter isElem

/-- The body of the first structured loop for one element
(multi-email-scraper.js:422-439): if the element is a childless element with
non-empty trimmed text matching the date pattern, look for a "last active"
label among the elder element siblings (`elders`, in document order) or on
the immediately preceding element sibling, and record the date text.
`elders = none` models a parentless element, on which
`Array.from(parent.children)` throws (`.error`), aborting the whole
structured pass. -/
def leafDateSelf (elders : Option (List Dom)) (t : String) (kids : List Dom) :
    Except Unit (List String) :=
  if (elemChildren kids).isEmpty && (jsTrim (textContent (.elem t kids))).length > 0 then
    let text := jsTrim (textContent (.elem t kids))
    if isDateToken text then
      match elders with
      | none => .error ()
      | some prevElems =>
        let hasLastActiveLabel :=
          prevElems.any (fun sib => strIncludes (jsToLower (textContent sib)) "last active")
        let prevSibCond :=
          match prevElems.getLast? with
          | some sib => strIncludes (jsToLower (textContent sib)) "last active"
          | none => false
        if hasLastActiveLabel || prevSibCond then .ok [text] else .ok []
    else .ok []
  else .ok []

mutual

/-- First structured loop, preorder over one element: the date texts
assigned to `structuredData.lastActive`, in assignment order. -/
def walk1Elem (elders : Option (List Dom)) (t : String) (kids : List Dom) :
    Except Unit (List String) := do
  let a ← leafDateSelf elders t kids
  let b ← walk1Sibs [] kids
  pure (a ++ b)

/-- First structured loop over a sibling list; `eldersRev` holds the element
siblings already passed, most recent first. -/
def walk1Sibs (eldersRev : List Dom) : List Dom → Except Unit (List String)
  | [] => .ok []
  | .txt _ :: rest => walk1Sibs eldersRev rest
  | .elem t kids :: rest => do
    let a ← walk1Elem (some eldersRev.reverse) t kids
    let b ← walk1Sibs (Dom.elem t kids :: eldersRev) rest
    pure (a ++ b)

end

/-- The first structured loop over the whole document
(multi-email-scraper.js:417-439); the modelled root is parentless. -/
def leafDateAssignments (root : Dom) : Except Unit (List String) :=
  match root with
  | .txt _ => .ok []
  | .elem t kids => walk1Elem none t kids

mutual

/-- Second structured loop (multi-email-scraper.js:442-453), preorder: for
each `div`/`section`/`article` whose text mentions "last active", the last
date match of its text, in assignment order. -/
def containerAssigns : Dom → List String
  | .txt _ => []
  | .elem t kids =>
    let self :=
      if (t = "div" || t = "section" || t = "article")
          && strIncludes (jsToLower (textContent (.elem t kids))) "last active" then
        match (jsMatchAll dateGlobalRe (textContent (.elem t kids))).getLast? with
        | some m => [m]
        | none => []
      else []
    self ++ containerAssignsList kids

/-- Second structured loop over a list of siblings. -/
def containerAssignsList : List Dom → List String
  | [] => []
  | d :: ds => containerAssigns d ++ containerAssignsList ds

end

/-- The final `structuredData.lastActive` (multi-email-scraper.js:412-453):
the last assignment of the two loops; `none` when the structured pass threw
(in which case the override below is skipped by the `catch`). -/
def structuredLastActive (root : Dom) : Option (Option String) :=
  match leafDateAssignments root with
  | .error _ => none
  | .ok a1 => some ((a1 ++ containerAssigns root).getLast?)

/-- The whole profile extraction of `extractStudentDetailData` for one
rendered page (multi-email-scraper.js:319-467): the regex pass over
`document.body.textContent.trim()`, then the structured override of
`lastActive` (lines 455-461) when the structured value is truthy. -/
def extractStudentProfile (root : Dom) : Profile :=
  let fullPageText := jsTrim (textContent root)
  let p := textExtractedProfile fullPageText
  match structuredLastActive root with
  | none => p
  | some structLA =>
    if optTruthy structLA then { p with lastActive := structLA } else p

/-! ### Student records and the per-student loop
(multi-email-scraper.js:784-1014) -/

/-- The raw result of `extractStudentDetailData` that the loop reorganizes
(multi-email-scraper.js:300-316, 467): only the parts that
`organizedStudentData` reads. -/
structure RawStudentData where
  email : String
  scrapedAt : String
  url : Option String
  studentProfile : Option Profile
deriving Repr, DecidableEq

/-- An entry of `results`: either an `organizedStudentData` success record
(multi-email-scraper.js:944-962; `error = none`, `profile = some _`) or the
error record of the scraping catch (lines 972-986; `profile = none`).
Success records carry no `rowData`; it is `[]` for them. -/
structure StudentResult where
  email : String
  scrapedAt : String
  url : Option String
  profile : Option Profile
  error : Option String
  rowData : List String
deriving Repr, DecidableEq

/-- The profile reorganization (multi-email-scraper.js:950-961): each field
is `rawStudentData.studentProfile?.field || null`. -/
def orgProfile : Option Profile → Profile
  | none => Profile.empty
  | some p =>
    { gradeLevel := jsOrNull p.gradeLevel
      readingLevel := jsOrNull p.readingLevel
      averageScore := jsOrNull p.averageScore
      sessionsThisMonth := jsOrNull p.sessionsThisMonth
      totalSessions := jsOrNull p.totalSessions
      timeReading := jsOrNull p.timeReading
      successRate := jsOrNull p.successRate
      lastActive := jsOrNull p.lastActive
      avgSessionTime := jsOrNull p.avgSessionTime
      currentCourse := jsOrNull p.currentCourse }

/-- `organizedStudentData` (multi-email-scraper.js:944-962). -/
def organize (raw : RawStudentData) : StudentResult :=
  { email := raw.email
    scrapedAt := raw.scrapedAt
    url := raw.url
    profile := some (orgProfile raw.studentProfile)
    error := none
    rowData := [] }

/-- Outcome of the browser interaction for one target email: the student was
found and its detail page scraped; found but the detail-page navigation or
scrape threw; never found by any search attempt; or the outer per-student
catch fired (multi-email-scraper.js:787-1013). -/
inductive SearchOutcome where
  | found (raw : RawStudentData)
  | foundScrapeError (msg : String) (rowData : List String)
  | notFound
  | searchThrew (msg : String)

variable {σ : Type}

/-- One iteration of the per-email loop: at most one record is appended to
`results` — an organized record on success, an error record when the scrape
of a found student threw (multi-email-scraper.js:972-986), and nothing when
the student was not found (line 1007) or the outer catch fired (lines
1011-1013). -/
def processEmail (step : σ → String → σ × SearchOutcome) (now : σ → String)
    (s : σ) (email : String) : σ × Option StudentResult :=
  match step s email with
  | (s', .found raw) => (s', some (organize raw))
  | (s', .foundScrapeError msg rd) =>
    (s', some { email := email, scrapedAt := now s', url := none
                profile := none, error := some msg, rowData := rd })
  | (s', .notFound) => (s', none)
  | (s', .searchThrew _) => (s', none)

/-- The per-email loop of `scrapeMultipleStudents`
(multi-email-scraper.js:784-1014), accumulating `results` in input order. -/
def scrapeLoop (step : σ → String → σ × SearchOutcome) (now : σ → String) :
    σ → List String → σ × List StudentResult
  | s, [] => (s, [])
  | s, email :: rest =>
    let p := processEmail step now s email
    let q := scrapeLoop step now p.1 rest
    (q.1, p.2.toList ++ q.2)

/-! ### Upload (multi-email-scraper.js:56-173) -/

/-- A JavaScript `parseInt` result: an integer or `NaN`. -/
inductive JsInt where
  | nan
  | val (n : Int)
deriving Repr, DecidableEq

/-- `parseInt(s)` for decimal strings: skip leading whitespace and an
optional sign, then parse the longest digit prefix; no digits gives `NaN`. -/
def jsParseInt (s : String) : JsInt :=
  let t := jsTrim s
  let (sign, rest) :=
    match t.data with
    | '-' :: cs => ((-1 : Int), cs)
    | '+' :: cs => ((1 : Int), cs)
    | cs => ((1 : Int), cs)
  let digits := rest.takeWhile Char.isDigit
  if digits.isEmpty then .nan
  else .val (sign * (digitsToNat digits : Nat))

/-- `x ? parseInt(x) : null` on an optional string field
(multi-email-scraper.js:88-92). -/
def truthyParseInt : Option String → Option JsInt
  | none => none
  | some s => if s = "" then none else some (jsParseInt s)

/-- Number of days in a month of the proleptic Gregorian calendar. -/
def daysInMonth (y m : Nat) : Nat :=
  if m = 2 then (if (y % 4 = 0 && y % 100 ≠ 0) || y % 400 = 0 then 29 else 28)
  else if m = 4 || m = 6 || m = 9 || m = 11 then 30 else 31

/-- The calendar day after `(y, m, d)`. -/
def nextDay (y m d : Nat) : Nat × Nat × Nat :=
  if d < daysInMonth y m then (y, m, d + 1)
  else if m < 12 then (y, m + 1, 1)
  else (y + 1, 1, 1)

/-- Two-digit zero padding. -/
def pad2 (n : Nat) : String := if n < 10 then "0" ++ toString n else toString n

/-- Four-digit zero padding. -/
def pad4 (n : Nat) : String := jsPadStart (toString n) 4 '0'

/-- Are the characters at positions `[i, i+k)` all decimal digits? -/
def digitsAt (cs : List Char) (i k : Nat) : Bool :=
  ((cs.drop i).take k).length = k && ((cs.drop i).take k).all Char.isDigit

/-- The natural number denoted by positions `[i, i+k)`. -/
def natAt (cs : List Char) (i k : Nat) : Nat :=
  digitsToNat ((cs.drop i).take k)

/-- `new Date(iso).toISOString()` for a string in the ECMA Date Time String
Format `YYYY-MM-DDTHH:mm:ss.sssZ`: `none` when the string does not match the
format or a field is out of range (`Invalid Date`, whose `toISOString`
throws); otherwise the normalized ISO string (hour 24 rolls over to the next
day).  The engine-specific legacy parsing of non-ISO strings is not
modelled; it can only be reached from a malformed `scrapedAt`. -/
def jsDateToISO (iso : String) : Option String :=
  let cs := iso.data
  let shapeOk := cs.length = 24 && digitsAt cs 0 4 && cs.getD 4 ' ' = '-'
    && digitsAt cs 5 2 && cs.getD 7 ' ' = '-' && digitsAt cs 8 2
    && cs.getD 10 ' ' = 'T' && digitsAt cs 11 2 && cs.getD 13 ' ' = ':'
    && digitsAt cs 14 2 && cs.getD 16 ' ' = ':' && digitsAt cs 17 2
    && cs.getD 19 ' ' = '.' && digitsAt cs 20 3 && cs.getD 23 ' ' = 'Z'
  if !shapeOk then none
  else
    let y := natAt cs 0 4
    let mo := natAt cs 5 2
    let d := natAt cs 8 2
    let h := natAt cs 11 2
    let mi := natAt cs 14 2
    let se := natAt cs 17 2
    let ms := natAt cs 20 3
    let rangeOk := 1 ≤ mo && mo ≤ 12 && 1 ≤ d && d ≤ daysInMonth y mo
      && mi ≤ 59 && se ≤ 59
      && (h ≤ 23 || (h = 24 && mi = 0 && se = 0 && ms = 0))
    if !rangeOk then none
    else
      let (y', mo', d', h') :=
        if h = 24 then
          let (a, b, c) := nextDay y mo d
          (a, b, c, 0)
        else (y, mo, d, h)
      some (pad4 y' ++ "-" ++ pad2 mo' ++ "-" ++ pad2 d' ++ "T" ++ pad2 h'
        ++ ":" ++ pad2 mi ++ ":" ++ pad2 se ++ "." ++ jsPadStart (toString ms) 3 '0' ++ "Z")

/-- The `scrapedAt` parsing of `uploadToSupabase`
(multi-email-scraper.js:66-81): split `"MM/DD/YYYY, HH:mm:ss"`, rebuild an
ISO string with `padStart`, and take its `toISOString`; every failure path
(a missing component makes a destructured `undefined` throw on `.padStart`
or makes the rebuilt string invalid, and an out-of-range field makes an
`Invalid Date` whose `toISOString` throws) is caught and falls back to the
current time `nowISO`. -/
def parseScrapedAtISO (dateStr : String) (nowISO : String) : String :=
  match jsSplitOn dateStr ", " with
  | datePart :: timePart :: _ =>
    (match jsSplitOn datePart "/", jsSplitOn timePart ":" with
    | month :: day :: year :: _, hour :: minute :: second :: _ =>
      let iso := year ++ "-" ++ jsPadStart month 2 '0' ++ "-" ++ jsPadStart day 2 '0'
        ++ "T" ++ jsPadStart hour 2 '0' ++ ":" ++ jsPadStart minute 2 '0'
        ++ ":" ++ jsPadStart second 2 '0' ++ ".000Z"
      (match jsDateToISO iso with
      | some s => s
      | none => nowISO)
    | _, _ => nowISO)
  | _ => nowISO

/-- A row of the AlphaRead student table as built by `uploadToSupabase`
(multi-email-scraper.js:84-98). -/
structure AlphaRow where
  email : String
  scraped_at : String
  profile_url : Option String
  grade_level : Option JsInt
  reading_level : Option JsInt
  average_score : Option String
  sessions_this_month : Option JsInt
  total_sessions : Option JsInt
  time_reading : Option String
  success_rate : Option String
  last_active : Option String
  avg_session_time : Option String
  current_course : Option String
deriving Repr, DecidableEq

/-- The AlphaRead student table. -/
abbrev AlphaDB := List AlphaRow

/-- The `dbRecord` built from a student result
(multi-email-scraper.js:84-98); `nowISO` is the current time used by the
date-parsing fallback. -/
def toDbRecord (nowISO : String) (d : StudentResult) : AlphaRow :=
  let pf := fun (f : Profile → Option String) =>
    match d.profile with
    | none => none
    | some p => f p
  { email := d.email
    scraped_at := parseScrapedAtISO d.scrapedAt nowISO
    profile_url := d.url
    grade_level := truthyParseInt (pf (fun p => p.gradeLevel))
    reading_level := truthyParseInt (pf (fun p => p.readingLevel))
    average_score := pf (fun p => p.averageScore)
    sessions_this_month := truthyParseInt (pf (fun p => p.sessionsThisMonth))
    total_sessions := truthyParseInt (pf (fun p => p.totalSessions))
    time_reading := pf (fun p => p.timeReading)
    success_rate := pf (fun p => p.successRate)
    last_active := pf (fun p => p.lastActive)
    avg_session_time := pf (fun p => p.avgSessionTime)
    current_course := pf (fun p => p.currentCourse) }

/-- The conflict key of the upsert: `onConflict: 'email,scraped_at'`
(multi-email-scraper.js:104-106). -/
def alphaKey (r : AlphaRow) : String × String := (r.email, r.scraped_at)

/-- Supabase `.upsert(record, { onConflict: 'email,scraped_at' })`: replace
the rows whose conflict key matches, append otherwise. -/
def alphaUpsert (db : AlphaDB) (r : AlphaRow) : AlphaDB :=
  if db.any (fun x => alphaKey x == alphaKey r) then
    db.map (fun x => if alphaKey x == alphaKey r then r else x)
  else db ++ [r]

/-- `uploadToSupabase` (multi-email-scraper.js:57-123) with the database
upload enabled: build the `dbRecord` and upsert it. -/
def uploadToSupabase (db : AlphaDB) (nowISO : String) (d : StudentResult) : AlphaDB :=
  alphaUpsert db (toDbRecord nowISO d)

/-- `uploadBatchToSupabase` (multi-email-scraper.js:126-173): upload each
record in order, skipping records that contain error data (lines 140-144). -/
def uploadBatchToSupabase (db : AlphaDB) (nowISO : String)
    (students : List StudentResult) : AlphaDB :=
  students.foldl
    (fun acc s => if optTruthy s.error then acc else uploadToSupabase acc nowISO s) db

end AlphaRead

/-! ## Run traces

For the temporal claims the top-level run of each scraper is modelled as the
sequence of its observable extraction and write events, mirroring the order
of the source: the Membean `scrape` (scraper.js:482-506) runs the per-student
loop and then uploads; the AlphaRead `scrapeMultipleStudents`
(multi-email-scraper.js:1034-1068) runs the per-email loop, writes the
results file, and then uploads the batch. -/

/-- An observable event of a scraper run. -/
inductive Ev where
  | extract (student : String)
  | fileWrite (file : String)
  | dbWrite (table : String) (key : String)
deriving Repr, DecidableEq

namespace Membean

variable {σ : Type}

/-- The `scrapeAllStudents` loop together with its extraction events: one
`extract` event per loop iteration, emitted when that student is processed. -/
def scrapeAllStudentsEv (step : σ → String → σ × StepResult) (now : σ → String) :
    σ → List String → σ × List StudentRecord × List Ev
  | s, [] => (s, [], [])
  | s, name :: rest =>
    let p := processStudent step now s name
    let q := scrapeAllStudentsEv step now p.1 rest
    (q.1, p.2 :: q.2.1, Ev.extract name :: q.2.2)

/-- The events of `MembeanScraper.scrape` (scraper.js:482-506): the loop's
extraction events, then one `dbWrite` per row the upload inserts into
`membean_students`. -/
def scrapeTrace (step : σ → String → σ × StepResult) (now : σ → String)
    (s : σ) (names : List String) : List Ev :=
  let q := scrapeAllStudentsEv step now s names
  q.2.2 ++ (membeanTransform q.2.1).map (fun r => Ev.dbWrite "membean_students" r.student_name)

end Membean

namespace AlphaRead

variable {σ : Type}

/-- The per-email loop together with its extraction events: an `extract`
event whenever a found student's detail page is scraped (successfully or
not); a student that is never found is not extracted. -/
def scrapeLoopEv (step : σ → String → σ × SearchOutcome) (now : σ → String) :
    σ → List String → σ × List StudentResult × List Ev
  | s, [] => (s, [], [])
  | s, email :: rest =>
    let p := processEmail step now s email
    let ev : List Ev :=
      match p.2 with
      | some _ => [Ev.extract email]
      | none => []
    let q := scrapeLoopEv step now p.1 rest
    (q.1, p.2.toList ++ q.2.1, ev ++ q.2.2)

/-- The events of `scrapeMultipleStudents` after login
(multi-email-scraper.js:784-1068): the loop's extraction events; then, when
any results were collected, the write of the results file (line 1038) and —
when database upload is enabled — one `dbWrite` per non-error record the
batch upload sends; with no results the function returns before any write
(lines 1022-1032). -/
def runTrace (step : σ → String → σ × SearchOutcome) (now : σ → String)
    (s : σ) (emails : List String) (outputFile : String) (enableUpload : Bool) :
    List Ev :=
  let q := scrapeLoopEv step now s emails
  if q.2.1.isEmpty then q.2.2
  else
    q.2.2 ++ [Ev.fileWrite outputFile] ++
      (if enableUpload then
        (q.2.1.filter (fun r => !optTruthy r.error)).map
          (fun r => Ev.dbWrite "student_data" r.email)
      else [])

end AlphaRead

/-! ## Helper definitions and lemmas -/

/-- Is the event an extraction event? -/
def Ev.isExtract : Ev → Bool
  | .extract _ => true
  | _ => false

/-- Is the event a results-file write? -/
def Ev.isFileWrite : Ev → Bool
  | .fileWrite _ => true
  | _ => false

/-- Is the event a datastore write? -/
def Ev.isDbWrite : Ev → Bool
  | .dbWrite _ _ => true
  | _ => false

/-- An oracle instrumented to record, in order, the student each invocation
was made for.  Running a loop with the instrumented oracle shows how often
and in which order the loop consults the oracle. -/
def instrument {σ α : Type} (step : σ → String → σ × α) :
    σ × List String → String → (σ × List String) × α :=
  fun p name => (((step p.1 name).1, p.2 ++ [name]), (step p.1 name).2)

/-- In a concatenation whose second part has no `p`-events and whose first
part has no `q`-events, every `p`-event is at a strictly smaller index than
every `q`-event. -/
theorem get?_append_index_lt {α} (A B : List α) (p q : α → Bool)
    (hB : ∀ x ∈ B, p x = false) (hA : ∀ x ∈ A, q x = false) :
    ∀ i j x y, (A ++ B).get? i = some x → p x = true →
      (A ++ B).get? j = some y → q y = true → i < j := by
  intro i j x y hx hpx hy hqy
  have hiA : i < A.length := by
    by_contra hge
    push_neg at hge
    rw [List.get?_append_right hge] at hx
    have hmem : x ∈ B := List.get?_mem hx
    have := hB _ hmem
    rw [hpx] at this
    simp at this
  have hjA : A.length ≤ j := by
    by_contra hlt
    push_neg at hlt
    rw [List.get?_append hlt] at hy
    have hmem : y ∈ A := List.get?_mem hy
    have := hA _ hmem
    rw [hqy] at this
    simp at this
  omega

namespace Membean

variable {σ : Type}

/-- The loop body consults the browser oracle exactly once, whatever the
outcome: the instrumented state appends exactly this student's name. -/
theorem processStudent_instrument_fst (step : σ → String → σ × StepResult)
    (now : σ × List String → String) (s : σ) (acc : List String) (name : String) :
    (processStudent (instrument step) now (s, acc) name).1 = ((step s name).1, acc ++ [name]) := by
  rcases h : (step s name).2 with d | _ | m <;>
    simp [processStudent, instrument, h]

/-- The `scrapeAllStudents` loop splits over concatenation: the students of
`xs` are fully processed, in order, before any student of `ys`. -/
theorem scrapeAllStudents_append (step : σ → String → σ × StepResult)
    (now : σ → String) (s : σ) (xs ys : List String) :
    scrapeAllStudents step now s (xs ++ ys) =
      ((scrapeAllStudents step now (scrapeAllStudents step now s xs).1 ys).1,
        (scrapeAllStudents step now s xs).2 ++
          (scrapeAllStudents step now (scrapeAllStudents step now s xs).1 ys).2) := by
  induction xs generalizing s with
  | nil => simp [scrapeAllStudents]
  | cons a l ih => simp [scrapeAllStudents, ih]

/-- Running the loop with the instrumented oracle: the oracle is consulted
exactly once per student, in input order. -/
theorem scrapeAllStudents_invocations (step : σ → String → σ × StepResult)
    (now : σ × List String → String) (s : σ) (acc : List String) (names : List String) :
    (scrapeAllStudents (instrument step) now (s, acc) names).1.2 = acc ++ names := by
  induction names generalizing s acc with
  | nil => simp [scrapeAllStudents]
  | cons a l ih =>
    simp only [scrapeAllStudents, processStudent_instrument_fst, ih]
    simp

/-- The event-emitting loop returns the same state and records as the plain
loop, and emits exactly one extraction event per student, in input order. -/
theorem scrapeAllStudentsEv_spec (step : σ → String → σ × StepResult)
    (now : σ → String) (s : σ) (names : List String) :
    scrapeAllStudentsEv step now s names =
      ((scrapeAllStudents step now s names).1,
        (scrapeAllStudents step now s names).2, names.map Ev.extract) := by
  induction names generalizing s with
  | nil => simp [scrapeAllStudentsEv, scrapeAllStudents]
  | cons a l ih => simp [scrapeAllStudentsEv, scrapeAllStudents, ih]

end Membean

namespace AlphaRead

variable {σ : Type}

/-- The loop body consults the browser oracle exactly once, whatever the
outcome: the instrumented state appends exactly this email. -/
theorem processEmail_instrument_fst (step : σ → String → σ × SearchOutcome)
    (now : σ × List String → String) (s : σ) (acc : List String) (email : String) :
    (processEmail (instrument step) now (s, acc) email).1 = ((step s email).1, acc ++ [email]) := by
  cases h : (step s email).2 <;> simp [processEmail, instrument, h]

/-- The per-email loop splits over concatenation: the emails of `xs` are
fully processed, in order, before any email of `ys`. -/
theorem scrapeLoop_append (step : σ → String → σ × SearchOutcome)
    (now : σ → String) (s : σ) (xs ys : List String) :
    scrapeLoop step now s (xs ++ ys) =
      ((scrapeLoop step now (scrapeLoop step now s xs).1 ys).1,
        (scrapeLoop step now s xs).2 ++
          (scrapeLoop step now (scrapeLoop step now s xs).1 ys).2) := by
  induction xs generalizing s with
  | nil => simp [scrapeLoop]
  | cons a l ih => simp [scrapeLoop, ih]

/-- Running the loop with the instrumented oracle: the oracle is consulted
exactly once per target email, in input order. -/
theorem scrapeLoop_invocations (step : σ → String → σ × SearchOutcome)
    (now : σ × List String → String) (s : σ) (acc : List String) (emails : List String) :
    (scrapeLoop (instrument step) now (s, acc) emails).1.2 = acc ++ emails := by
  induction emails generalizing s acc with
  | nil => simp [scrapeLoop]
  | cons a l ih =>
    simp only [scrapeLoop, processEmail_instrument_fst, ih]
    simp

/-- The event-emitting loop returns the same records as the plain loop, and
every event it emits is an extraction event. -/
theorem scrapeLoopEv_spec (step : σ → String → σ × SearchOutcome)
    (now : σ → String) (s : σ) (emails : List String) :
    (scrapeLoopEv step now s emails).2.1 = (scrapeLoop step now s emails).2 ∧
      ∀ e ∈ (scrapeLoopEv step now s emails).2.2, e.isExtract = true := by
  induction emails generalizing s with
  | nil => simp [scrapeLoopEv, scrapeLoop]
  | cons a l ih =>
    refine ⟨?_, ?_⟩
    · simp [scrapeLoopEv, scrapeLoop, (ih _).1]
    · intro e he
      simp only [scrapeLoopEv] at he
      rcases List.mem_append.1 he with h1 | h2
      · rcases hp : (processEmail step now s a).2 with _ | r
        · rw [hp] at h1
          simp at h1
        · rw [hp] at h1
          simp at h1
          simp [h1, Ev.isExtract]
      · exact (ih _).2 e h2


end AlphaRead

/-! ## Concrete example data used by counterexamples and witnesses -/

/-- An existing `membean_students` row. -/
def exMRow : Membean.MembeanRow :=
  { url := some "https://membean.com/s/1", timestamp := "2025-01-01T00:00:00Z"
    student_name := "Smith, Jan", recent_training := [] }

/-- A freshly scraped record for the same student and the same timestamp. -/
def exMStudent : Membean.StudentRecord :=
  { studentName := "Smith, Jan", url := some "https://membean.com/s/1"
    timestamp := "2025-01-01T00:00:00Z", recentTraining := some [], error := none }

/-- A Membean oracle whose every step throws. -/
def exFailStep : Nat → String → Nat × Membean.StepResult :=
  fun n name => (n + 1, .failure ("boom " ++ name))

/-- A clock for the Membean examples. -/
def exNowM : Nat → String := fun n => "t" ++ toString n

/-- Raw detail-page data for the student `b@x`. -/
def exRawB : AlphaRead.RawStudentData :=
  { email := "b@x", scrapedAt := "01/02/2025, 10:00:00", url := some "u"
    studentProfile := none }

/-- An AlphaRead oracle that never finds `a@x` and finds `b@x`. -/
def exSkipStep : Unit → String → Unit × AlphaRead.SearchOutcome :=
  fun _ e => ((), if e = "a@x" then .notFound else .found exRawB)

/-- A clock for the AlphaRead examples. -/
def exNowA : Unit → String := fun _ => "now"

/-- An existing AlphaRead row for an unrelated student. -/
def exARow : AlphaRead.AlphaRow :=
  { email := "someone@x", scraped_at := "2020-01-01T00:00:00.000Z"
    profile_url := none, grade_level := none, reading_level := none
    average_score := none, sessions_this_month := none, total_sessions := none
    time_reading := none, success_rate := none, last_active := none
    avg_session_time := none, current_course := none }

/-- A concrete rendered detail page: the metric strip, a "Last Active"
labelled date element, and the session-time/course text. -/
def fixturePage : AlphaRead.Dom :=
  .elem "body" [
    .elem "div" [.txt "John Doe11Grade Level8Reading Level62.2%Average Score0Sessions This Month15Total Sessions2h 36mTime Reading62.2%Success Rate"],
    .elem "div" [.elem "span" [.txt "Last Active"], .elem "span" [.txt "Jun 2"]],
    .elem "div" [.txt "10mAvg. Session TimeCurrent Course5 - Advanced (B)User PowerPath"]]

/-- A Membean oracle that finds every student with an empty training table. -/
def exFoundStep : Unit → String → Unit × Membean.StepResult :=
  fun _ n => ((), .found { studentName := n, url := some "u", timestamp := "T"
                           recentTraining := some [], error := none })

/-- A constant clock. -/
def exNowU : Unit → String := fun _ => "T"

/-! ## Shared upload lemmas -/

/-- The Membean scraper's upload is a plain insert: it appends the
transformed rows and leaves every existing row in place. -/
theorem membean_upload_eq_append (db : Membean.MembeanDB)
    (data : List Membean.StudentRecord) :
    Membean.uploadToSupabase db data = db ++ Membean.membeanTransform data := by
  cases h : (Membean.membeanTransform data).isEmpty with
  | true =>
    have hnil : Membean.membeanTransform data = [] := by
      simpa [List.isEmpty_iff] using h
    simp [Membean.uploadToSupabase, Membean.dbInsertRows, h, hnil]
  | false => simp [Membean.uploadToSupabase, Membean.dbInsertRows, h]

/-- The standalone Membean upload script is a plain insert as well. -/
theorem part003_upload_eq_append (db : Membean.MembeanDB)
    (data : List Membean.StudentRecord) :
    Membean.uploadStudentData db data = db ++ Membean.part003Transform data := by
  cases h : (Membean.part003Transform data).isEmpty with
  | true =>
    have hnil : Membean.part003Transform data = [] := by
      simpa [List.isEmpty_iff] using h
    simp [Membean.uploadStudentData, Membean.dbInsertRows, h, hnil]
  | false => simp [Membean.uploadStudentData, Membean.dbInsertRows, h]

/-- An upsert leaves every row whose conflict key differs from the upserted
record's key in the table. -/
theorem alphaUpsert_preserves (db : AlphaRead.AlphaDB) (r new : AlphaRead.AlphaRow)
    (hr : r ∈ db) (hne : AlphaRead.alphaKey r ≠ AlphaRead.alphaKey new) :
    r ∈ AlphaRead.alphaUpsert db new := by
  unfold AlphaRead.alphaUpsert
  cases h : db.any (fun x => AlphaRead.alphaKey x == AlphaRead.alphaKey new) with
  | true =>
    simp only [h, if_true]
    refine List.mem_map.2 ⟨r, hr, ?_⟩
    have hb : (AlphaRead.alphaKey r == AlphaRead.alphaKey new) = false :=
      beq_eq_false_iff_ne.2 hne
    simp [hb]
  | false =>
    simp only [h, Bool.false_eq_true, if_false]
    exact List.mem_append_left _ hr

/-! ## Claim C1

"Every scraper's upload routine writes each successfully scraped per-student
result to the shared relational datastore as an upsert [...] not a plain
insert."  The AlphaRead uploader does upsert (on `email,scraped_at`), but the
Membean scraper's `uploadToSupabase` (scraper.js:447-449) and the standalone
`uploadStudentData` (upload-to-supabase.js:64-66) call `.insert`, a plain
insert. -/

/-- C1 (counterexample): the Membean upload routine is not an upsert keyed
on the student's identity and timestamp: uploading a record whose
(`student_name`, `timestamp`) key already has a row in `membean_students`
leaves two rows with that key, where an upsert would leave one. -/
theorem membean_upload_duplicates_existing_key :
    (Membean.uploadToSupabase [exMRow] [exMStudent]).countP
        (fun r => r.student_name == "Smith, Jan" && r.timestamp == "2025-01-01T00:00:00Z") = 2 ∧
      ([exMRow] : Membean.MembeanDB).countP
        (fun r => r.student_name == "Smith, Jan" && r.timestamp == "2025-01-01T00:00:00Z") = 1 := by
  exact ⟨by decide, by decide⟩

/-- C1 (amended): the AlphaRead upload routine writes each record as an
upsert keyed on (`email`, `scraped_at`) — uploading a record whose key is
already present keeps the row count, otherwise it grows by one — while the
Membean scraper's upload routine and the standalone Membean upload script
write plain inserts that append the transformed rows to the table. -/
theorem upload_write_operations :
    (∀ db data, Membean.uploadToSupabase db data = db ++ Membean.membeanTransform data) ∧
    (∀ db data, Membean.uploadStudentData db data = db ++ Membean.part003Transform data) ∧
    (∀ db nowISO d, AlphaRead.uploadToSupabase db nowISO d =
      AlphaRead.alphaUpsert db (AlphaRead.toDbRecord nowISO d)) ∧
    (∀ (db : AlphaRead.AlphaDB) (r : AlphaRead.AlphaRow),
      (AlphaRead.alphaUpsert db r).length =
        if db.any (fun x => AlphaRead.alphaKey x == AlphaRead.alphaKey r)
        then db.length else db.length + 1) := by
  refine ⟨membean_upload_eq_append, part003_upload_eq_append, fun _ _ _ => rfl, ?_⟩
  · intro db r
    cases h : db.any (fun x => AlphaRead.alphaKey x == AlphaRead.alphaKey r) with
    | true => simp [AlphaRead.alphaUpsert, h]
    | false => simp [AlphaRead.alphaUpsert, h]

/-! ## Claim C2

Per-student error handling is "log and continue": a student whose scraping
step fails contributes one error record (Membean) or no record (AlphaRead),
the loop always continues with the remaining students, and the failed
student's browser steps are never retried (the oracle is consulted exactly
once per student, which the instrumented runs make explicit). -/

/-- C2: for every student list, a per-student failure never aborts the run
and is never retried.  (a)/(c): under instrumentation each scraper's loop
consults the browser oracle exactly once per student, in input order,
whatever the outcomes.  (b): a Membean student whose step throws yields
exactly one error record carrying the message, and the loop continues with
the remaining students.  (d): an AlphaRead student whose search throws is
skipped and the loop continues.  (e): an AlphaRead student whose detail
scrape throws yields exactly one error record, and the loop continues. -/
theorem per_student_error_isolation :
    (∀ (σ : Type) (step : σ → String → σ × Membean.StepResult)
        (now : σ × List String → String) (s : σ) (names : List String),
      (Membean.scrapeAllStudents (instrument step) now (s, []) names).1.2 = names) ∧
    (∀ (σ : Type) (step : σ → String → σ × Membean.StepResult) (now : σ → String)
        (s s' : σ) (name msg : String) (rest : List String),
      step s name = (s', .failure msg) →
      (Membean.scrapeAllStudents step now s (name :: rest)).2 =
        Membean.errorRecord name msg (now s') ::
          (Membean.scrapeAllStudents step now s' rest).2) ∧
    (∀ (σ : Type) (step : σ → String → σ × AlphaRead.SearchOutcome)
        (now : σ × List String → String) (s : σ) (emails : List String),
      (AlphaRead.scrapeLoop (instrument step) now (s, []) emails).1.2 = emails) ∧
    (∀ (σ : Type) (step : σ → String → σ × AlphaRead.SearchOutcome) (now : σ → String)
        (s s' : σ) (email msg : String) (rest : List String),
      step s email = (s', .searchThrew msg) →
      (AlphaRead.scrapeLoop step now s (email :: rest)).2 =
        (AlphaRead.scrapeLoop step now s' rest).2) ∧
    (∀ (σ : Type) (step : σ → String → σ × AlphaRead.SearchOutcome) (now : σ → String)
        (s s' : σ) (email msg : String) (rd : List String) (rest : List String),
      step s email = (s', .foundScrapeError msg rd) →
      (AlphaRead.scrapeLoop step now s (email :: rest)).2 =
        { email := email, scrapedAt := now s', url := none, profile := none
          error := some msg, rowData := rd } ::
          (AlphaRead.scrapeLoop step now s' rest).2) := by
  refine ⟨?_, ?_, ?_, ?_, ?_⟩
  · intro σ step now s names
    simpa using Membean.scrapeAllStudents_invocations step now s [] names
  · intro σ step now s s' name msg rest h
    simp [Membean.scrapeAllStudents, Membean.processStudent, h]
  · intro σ step now s emails
    simpa using AlphaRead.scrapeLoop_invocations step now s [] emails
  · intro σ step now s s' email msg rest h
    simp [AlphaRead.scrapeLoop, AlphaRead.processEmail, h]
  · intro σ step now s s' email msg rd rest h
    simp [AlphaRead.scrapeLoop, AlphaRead.processEmail, h]

/-- C2 (witness): a concrete run in which the first student's step throws;
the loop pushes the error record and continues with the second student. -/
theorem per_student_error_isolation_witness :
    exFailStep 0 "A" = (1, Membean.StepResult.failure "boom A") ∧
      (Membean.scrapeAllStudents exFailStep exNowM 0 ["A", "B"]).2 =
        Membean.errorRecord "A" "boom A" (exNowM 1) ::
          (Membean.scrapeAllStudents exFailStep exNowM 1 ["B"]).2 :=
  ⟨rfl, per_student_error_isolation.2.1 Nat exFailStep exNowM 0 1 "A" "boom A" ["B"] rfl⟩

/-! ## Claim C3

"... the extraction (or error record) for student i is completed and
appended to the results before any step for student i+1 begins, so the
accumulated results list preserves the input order."  The Membean loop does
append exactly one record per student, but the AlphaRead loop appends
nothing for a student that is never found (multi-email-scraper.js:1007) or
whose search throws (lines 1011-1013), so not every student has a record. -/

/-- C3 (counterexample): an AlphaRead run over the two students
`["a@x", "b@x"]` in which `a@x` is not found: the accumulated results
contain no record for `a@x` — one record for two students — refuting that
an extraction or error record is appended for every student. -/
theorem alpharead_not_found_appends_no_record :
    (["a@x", "b@x"] : List String).length = 2 ∧
      (AlphaRead.scrapeLoop exSkipStep exNowA () ["a@x", "b@x"]).2.map
          (fun r => r.email) = ["b@x"] :=
  ⟨rfl, by decide⟩

/-- C3 (amended): both scrapers process students strictly sequentially in
input order — all records of a prefix are accumulated, and the state
reached, before any later student is processed — and each student
contributes exactly one record in the Membean scraper (so the results
preserve input order one-to-one) and at most one record in the AlphaRead
scraper (a student that is not found, or whose search throws, contributes
none), so the accumulated results appear in input order. -/
theorem sequential_in_order_processing :
    (∀ (σ : Type) (step : σ → String → σ × Membean.StepResult) (now : σ → String)
        (s : σ) (xs ys : List String),
      (Membean.scrapeAllStudents step now s (xs ++ ys)).2 =
        (Membean.scrapeAllStudents step now s xs).2 ++
          (Membean.scrapeAllStudents step now
            (Membean.scrapeAllStudents step now s xs).1 ys).2) ∧
    (∀ (σ : Type) (step : σ → String → σ × Membean.StepResult) (now : σ → String)
        (s : σ) (name : String),
      (Membean.scrapeAllStudents step now s [name]).2 =
        [(Membean.processStudent step now s name).2]) ∧
    (∀ (σ : Type) (step : σ → String → σ × Membean.StepResult) (now : σ → String)
        (s : σ) (names : List String),
      (Membean.scrapeAllStudents step now s names).2.length = names.length) ∧
    (∀ (σ : Type) (step : σ → String → σ × AlphaRead.SearchOutcome) (now : σ → String)
        (s : σ) (xs ys : List String),
      (AlphaRead.scrapeLoop step now s (xs ++ ys)).2 =
        (AlphaRead.scrapeLoop step now s xs).2 ++
          (AlphaRead.scrapeLoop step now (AlphaRead.scrapeLoop step now s xs).1 ys).2) ∧
    (∀ (σ : Type) (step : σ → String → σ × AlphaRead.SearchOutcome) (now : σ → String)
        (s : σ) (email : String),
      (AlphaRead.scrapeLoop step now s [email]).2 =
        ((AlphaRead.processEmail step now s email).2).toList) := by
  refine ⟨?_, ?_, ?_, ?_, ?_⟩
  · intro σ step now s xs ys
    rw [Membean.scrapeAllStudents_append]
  · intro σ step now s name
    simp [Membean.scrapeAllStudents]
  · intro σ step now s names
    induction names generalizing s with
    | nil => simp [Membean.scrapeAllStudents]
    | cons a l ih => simp [Membean.scrapeAllStudents, ih]
  · intro σ step now s xs ys
    rw [AlphaRead.scrapeLoop_append]
  · intro σ step now s email
    simp [AlphaRead.scrapeLoop]

/-! ## Claim C4

Given a fixed rendered detail page, the ten extracted profile fields are
uniquely determined by the page content: the extraction
(multi-email-scraper.js:344-461) reads only the page — the regex pass reads
`document.body.textContent` and the structured pass reads the element tree —
and uses no clock, randomness or external state. -/

/-- C4: two extraction runs over equal page content produce equal values for
all ten profile fields (gradeLevel, readingLevel, averageScore,
sessionsThisMonth, totalSessions, timeReading, successRate, lastActive,
avgSessionTime, currentCourse). -/
theorem extraction_deterministic (p1 p2 : AlphaRead.Dom) (h : p1 = p2) :
    (AlphaRead.extractStudentProfile p1).gradeLevel =
        (AlphaRead.extractStudentProfile p2).gradeLevel ∧
      (AlphaRead.extractStudentProfile p1).readingLevel =
        (AlphaRead.extractStudentProfile p2).readingLevel ∧
      (AlphaRead.extractStudentProfile p1).averageScore =
        (AlphaRead.extractStudentProfile p2).averageScore ∧
      (AlphaRead.extractStudentProfile p1).sessionsThisMonth =
        (AlphaRead.extractStudentProfile p2).sessionsThisMonth ∧
      (AlphaRead.extractStudentProfile p1).totalSessions =
        (AlphaRead.extractStudentProfile p2).totalSessions ∧
      (AlphaRead.extractStudentProfile p1).timeReading =
        (AlphaRead.extractStudentProfile p2).timeReading ∧
      (AlphaRead.extractStudentProfile p1).successRate =
        (AlphaRead.extractStudentProfile p2).successRate ∧
      (AlphaRead.extractStudentProfile p1).lastActive =
        (AlphaRead.extractStudentProfile p2).lastActive ∧
      (AlphaRead.extractStudentProfile p1).avgSessionTime =
        (AlphaRead.extractStudentProfile p2).avgSessionTime ∧
      (AlphaRead.extractStudentProfile p1).currentCourse =
        (AlphaRead.extractStudentProfile p2).currentCourse := by
  subst h
  exact ⟨rfl, rfl, rfl, rfl, rfl, rfl, rfl, rfl, rfl, rfl⟩

/-- C4 (witness): the determinism theorem applied to the concrete fixture
page. -/
theorem extraction_deterministic_witness :
    fixturePage = fixturePage ∧
      ((AlphaRead.extractStudentProfile fixturePage).gradeLevel =
          (AlphaRead.extractStudentProfile fixturePage).gradeLevel ∧
        (AlphaRead.extractStudentProfile fixturePage).readingLevel =
          (AlphaRead.extractStudentProfile fixturePage).readingLevel ∧
        (AlphaRead.extractStudentProfile fixturePage).averageScore =
          (AlphaRead.extractStudentProfile fixturePage).averageScore ∧
        (AlphaRead.extractStudentProfile fixturePage).sessionsThisMonth =
          (AlphaRead.extractStudentProfile fixturePage).sessionsThisMonth ∧
        (AlphaRead.extractStudentProfile fixturePage).totalSessions =
          (AlphaRead.extractStudentProfile fixturePage).totalSessions ∧
        (AlphaRead.extractStudentProfile fixturePage).timeReading =
          (AlphaRead.extractStudentProfile fixturePage).timeReading ∧
        (AlphaRead.extractStudentProfile fixturePage).successRate =
          (AlphaRead.extractStudentProfile fixturePage).successRate ∧
        (AlphaRead.extractStudentProfile fixturePage).lastActive =
          (AlphaRead.extractStudentProfile fixturePage).lastActive ∧
        (AlphaRead.extractStudentProfile fixturePage).avgSessionTime =
          (AlphaRead.extractStudentProfile fixturePage).avgSessionTime ∧
        (AlphaRead.extractStudentProfile fixturePage).currentCourse =
          (AlphaRead.extractStudentProfile fixturePage).currentCourse) :=
  ⟨rfl, extraction_deterministic fixturePage fixturePage rfl⟩

/-! ## Claim C5

Each run is extract-then-write: in the Membean `scrape` the upload follows
the whole per-student loop, and in the AlphaRead run the batch upload
follows the loop and the results-file write. -/

/-- An extraction event is neither kind of write event. -/
theorem ev_extract_not_write (e : Ev) (he : e.isExtract = true) :
    e.isDbWrite = false ∧ e.isFileWrite = false := by
  cases e <;> simp_all [Ev.isExtract, Ev.isDbWrite, Ev.isFileWrite]

/-- C5: in every Membean run trace each datastore write comes after every
extraction event, and in every AlphaRead run trace each datastore write
comes after every extraction event and after the results-file write. -/
theorem upload_events_follow_extraction :
    (∀ (σ : Type) (step : σ → String → σ × Membean.StepResult) (now : σ → String)
        (s : σ) (names : List String) (i j : Nat) (x y : Ev),
      (Membean.scrapeTrace step now s names).get? i = some x → x.isExtract = true →
      (Membean.scrapeTrace step now s names).get? j = some y → y.isDbWrite = true →
      i < j) ∧
    (∀ (σ : Type) (step : σ → String → σ × AlphaRead.SearchOutcome) (now : σ → String)
        (s : σ) (emails : List String) (file : String) (enb : Bool) (i j : Nat) (x y : Ev),
      (AlphaRead.runTrace step now s emails file enb).get? i = some x → x.isExtract = true →
      (AlphaRead.runTrace step now s emails file enb).get? j = some y → y.isDbWrite = true →
      i < j) ∧
    (∀ (σ : Type) (step : σ → String → σ × AlphaRead.SearchOutcome) (now : σ → String)
        (s : σ) (emails : List String) (file : String) (enb : Bool) (i j : Nat) (x y : Ev),
      (AlphaRead.runTrace step now s emails file enb).get? i = some x → x.isFileWrite = true →
      (AlphaRead.runTrace step now s emails file enb).get? j = some y → y.isDbWrite = true →
      i < j) := by
  refine ⟨?_, ?_, ?_⟩
  · intro σ step now s names i j x y hx hpx hy hqy
    have e : Membean.scrapeTrace step now s names =
        (names.map Ev.extract) ++
          ((Membean.membeanTransform (Membean.scrapeAllStudents step now s names).2).map
            (fun r => Ev.dbWrite "membean_students" r.student_name)) := by
      simp [Membean.scrapeTrace, Membean.scrapeAllStudentsEv_spec]
    rw [e] at hx hy
    refine get?_append_index_lt _ _ Ev.isExtract Ev.isDbWrite ?_ ?_ i j x y hx hpx hy hqy
    · intro z hz
      rcases List.mem_map.1 hz with ⟨r, _, rfl⟩
      rfl
    · intro z hz
      rcases List.mem_map.1 hz with ⟨n, _, rfl⟩
      rfl
  · intro σ step now s emails file enb i j x y hx hpx hy hqy
    cases h : (AlphaRead.scrapeLoopEv step now s emails).2.1.isEmpty with
    | true =>
      have e : AlphaRead.runTrace step now s emails file enb =
          (AlphaRead.scrapeLoopEv step now s emails).2.2 := by
        simp [AlphaRead.runTrace, h]
      rw [e] at hy
      have hymem := List.get?_mem hy
      have hyx := (AlphaRead.scrapeLoopEv_spec step now s emails).2 y hymem
      have := (ev_extract_not_write y hyx).1
      rw [hqy] at this
      simp at this
    | false =>
      have e : AlphaRead.runTrace step now s emails file enb =
          (AlphaRead.scrapeLoopEv step now s emails).2.2 ++
            (Ev.fileWrite file ::
              (if enb then
                (((AlphaRead.scrapeLoopEv step now s emails).2.1.filter
                  (fun r => !optTruthy r.error)).map
                    (fun r => Ev.dbWrite "student_data" r.email))
              else [])) := by
        simp [AlphaRead.runTrace, h]
      rw [e] at hx hy
      refine get?_append_index_lt _ _ Ev.isExtract Ev.isDbWrite ?_ ?_ i j x y hx hpx hy hqy
      · intro z hz
        rcases List.mem_cons.1 hz with h1 | h2
        · rw [h1]; rfl
        · cases enb with
          | true =>
            simp only [if_true] at h2
            rcases List.mem_map.1 h2 with ⟨r, _, rfl⟩
            rfl
          | false => simp at h2
      · intro z hz
        have hzx := (AlphaRead.scrapeLoopEv_spec step now s emails).2 z hz
        exact (ev_extract_not_write z hzx).1
  · intro σ step now s emails file enb i j x y hx hpx hy hqy
    cases h : (AlphaRead.scrapeLoopEv step now s emails).2.1.isEmpty with
    | true =>
      have e : AlphaRead.runTrace step now s emails file enb =
          (AlphaRead.scrapeLoopEv step now s emails).2.2 := by
        simp [AlphaRead.runTrace, h]
      rw [e] at hx
      have hxmem := List.get?_mem hx
      have hxx := (AlphaRead.scrapeLoopEv_spec step now s emails).2 x hxmem
      have := (ev_extract_not_write x hxx).2
      rw [hpx] at this
      simp at this
    | false =>
      have e : AlphaRead.runTrace step now s emails file enb =
          ((AlphaRead.scrapeLoopEv step now s emails).2.2 ++ [Ev.fileWrite file]) ++
            (if enb then
              (((AlphaRead.scrapeLoopEv step now s emails).2.1.filter
                (fun r => !optTruthy r.error)).map
                  (fun r => Ev.dbWrite "student_data" r.email))
            else []) := by
        simp [AlphaRead.runTrace, h]
      rw [e] at hx hy
      refine get?_append_index_lt _ _ Ev.isFileWrite Ev.isDbWrite ?_ ?_ i j x y hx hpx hy hqy
      · intro z hz
        cases enb with
        | true =>
          simp only [if_true] at hz
          rcases List.mem_map.1 hz with ⟨r, _, rfl⟩
          rfl
        | false => simp at hz
      · intro z hz
        rcases List.mem_append.1 hz with h1 | h2
        · have hzx := (AlphaRead.scrapeLoopEv_spec step now s emails).2 z h1
          exact (ev_extract_not_write z hzx).1
        · rw [List.mem_singleton.1 h2]; rfl

/-- C5 (witness): a concrete one-student Membean run whose trace is the
extraction of "A" followed by the datastore write of its row. -/
theorem upload_events_follow_extraction_witness :
    (Membean.scrapeTrace exFoundStep exNowU () ["A"]).get? 0 = some (Ev.extract "A") ∧
      (Ev.extract "A").isExtract = true ∧
      (Membean.scrapeTrace exFoundStep exNowU () ["A"]).get? 1 =
        some (Ev.dbWrite "membean_students" "A") ∧
      (Ev.dbWrite "membean_students" "A").isDbWrite = true ∧ 0 < 1 :=
  ⟨by decide, rfl, by decide, rfl,
    upload_events_follow_extraction.1 Unit exFoundStep exNowU () ["A"] 0 1
      (Ev.extract "A") (Ev.dbWrite "membean_students" "A")
      (by decide) rfl (by decide) rfl⟩

/-! ## Claim C6

Every uploaded record is a flat per-site row: the student's identity, the
scraped metric fields, and a timestamp.  The Membean row is the projection
of one student record (with `recent_training` as the per-site metrics
payload); the AlphaRead row is the field-wise projection of one student
result (with `parseInt` and the timestamp normalization applied). -/

/-- C6: every row the Membean upload transformation produces is the flat
projection (`url`, `timestamp`, `student_name`, `recent_training`) of one
scraped student record, and the AlphaRead `dbRecord` is the flat field-wise
projection (`email`, normalized `scraped_at`, `profile_url`, and the ten
metric columns) of one student result. -/
theorem uploaded_rows_flat_shape :
    (∀ data r, r ∈ Membean.membeanTransform data →
      ∃ s, s ∈ data ∧ r = { url := s.url, timestamp := s.timestamp
                            student_name := s.studentName
                            recent_training := s.recentTraining.getD [] }) ∧
    (∀ nowISO d, AlphaRead.toDbRecord nowISO d =
      { email := d.email
        scraped_at := AlphaRead.parseScrapedAtISO d.scrapedAt nowISO
        profile_url := d.url
        grade_level := AlphaRead.truthyParseInt (d.profile.bind (fun p => p.gradeLevel))
        reading_level := AlphaRead.truthyParseInt (d.profile.bind (fun p => p.readingLevel))
        average_score := d.profile.bind (fun p => p.averageScore)
        sessions_this_month :=
          AlphaRead.truthyParseInt (d.profile.bind (fun p => p.sessionsThisMonth))
        total_sessions := AlphaRead.truthyParseInt (d.profile.bind (fun p => p.totalSessions))
        time_reading := d.profile.bind (fun p => p.timeReading)
        success_rate := d.profile.bind (fun p => p.successRate)
        last_active := d.profile.bind (fun p => p.lastActive)
        avg_session_time := d.profile.bind (fun p => p.avgSessionTime)
        current_course := d.profile.bind (fun p => p.currentCourse) }) := by
  constructor
  · intro data r hr
    rcases List.mem_map.1 hr with ⟨s, hs, rfl⟩
    exact ⟨s, (List.mem_filter.1 hs).1, rfl⟩
  · intro nowISO d
    cases hp : d.profile <;> simp [AlphaRead.toDbRecord, hp]

/-- C6 (witness): the flat-row theorem applied to a concrete scraped
record. -/
theorem uploaded_rows_flat_shape_witness :
    exMRow ∈ Membean.membeanTransform [exMStudent] ∧
      ∃ s, s ∈ [exMStudent] ∧
        exMRow = { url := s.url, timestamp := s.timestamp
                   student_name := s.studentName
                   recent_training := s.recentTraining.getD [] } :=
  ⟨by decide, uploaded_rows_flat_shape.1 [exMStudent] exMRow (by decide)⟩

/-! ## Claim C7

No upload routine deletes or modifies an existing row except by upsert on
its own conflict key: the Membean uploads append, and the AlphaRead upsert
touches only rows with the conflict key of the uploaded record. -/

/-- C7: the Membean upload routines only append (every existing row keeps
its position), and the AlphaRead single and batch uploads keep every
existing row whose (`email`, `scraped_at`) key is not the key of an uploaded
record. -/
theorem upload_frame_property :
    (∀ db data, ∃ tail, Membean.uploadToSupabase db data = db ++ tail) ∧
    (∀ db data, ∃ tail, Membean.uploadStudentData db data = db ++ tail) ∧
    (∀ db nowISO d r, r ∈ db →
      AlphaRead.alphaKey r ≠ AlphaRead.alphaKey (AlphaRead.toDbRecord nowISO d) →
      r ∈ AlphaRead.uploadToSupabase db nowISO d) ∧
    (∀ db nowISO students r,
      (∀ s ∈ students, AlphaRead.alphaKey r ≠ AlphaRead.alphaKey (AlphaRead.toDbRecord nowISO s)) →
      r ∈ db → r ∈ AlphaRead.uploadBatchToSupabase db nowISO students) := by
  refine ⟨?_, ?_, ?_, ?_⟩
  · intro db data
    exact ⟨Membean.membeanTransform data, membean_upload_eq_append db data⟩
  · intro db data
    exact ⟨Membean.part003Transform data, part003_upload_eq_append db data⟩
  · intro db nowISO d r hr hne
    exact alphaUpsert_preserves db r _ hr hne
  · intro db nowISO students r
    induction students generalizing db with
    | nil =>
      intro _ hr
      simpa [AlphaRead.uploadBatchToSupabase] using hr
    | cons s l ih =>
      intro hkeys hr
      have hbatch : AlphaRead.uploadBatchToSupabase db nowISO (s :: l) =
          AlphaRead.uploadBatchToSupabase
            (if optTruthy s.error then db else AlphaRead.uploadToSupabase db nowISO s)
            nowISO l := by
        simp [AlphaRead.uploadBatchToSupabase]
      rw [hbatch]
      have hstep : r ∈ (if optTruthy s.error then db
          else AlphaRead.uploadToSupabase db nowISO s) := by
        cases he : optTruthy s.error with
        | true => simpa [he] using hr
        | false =>
          simp only [he, Bool.false_eq_true, if_false]
          exact alphaUpsert_preserves db r _ hr (hkeys s (List.mem_cons_self _ _))
      exact ih _ (fun t ht => hkeys t (List.mem_cons_of_mem _ ht)) hstep

/-- C7 (witness): a concrete table with one row, unrelated to the uploaded
record's key, that survives the AlphaRead upload. -/
theorem upload_frame_property_witness :
    exARow ∈ [exARow] ∧
      AlphaRead.alphaKey exARow ≠
        AlphaRead.alphaKey (AlphaRead.toDbRecord "NOW" (AlphaRead.organize exRawB)) ∧
      exARow ∈ AlphaRead.uploadToSupabase [exARow] "NOW" (AlphaRead.organize exRawB) :=
  ⟨by decide, by decide,
    upload_frame_property.2.2.1 [exARow] "NOW" (AlphaRead.organize exRawB) exARow
      (by decide) (by decide)⟩

/-! ## Claim C8

`readStudentsFromSupabase` (studentsManager.js:44-58) maps each fetched name
to "Last, First" format. -/

/-- C8: every fetched name is transformed; a trimmed name splitting into at
least two space-separated parts becomes "last part, remaining parts joined
by spaces", and a single-part name is returned unchanged (trimmed). -/
theorem supabase_name_transform_spec :
    (∀ rows, Membean.readStudentsFromSupabase (Except.ok rows) =
      rows.map (fun r => Membean.transformStudentName r.name)) ∧
    (∀ raw : String, 2 ≤ (jsSplitOn (jsTrim raw) " ").length →
      Membean.transformStudentName raw =
        (jsSplitOn (jsTrim raw) " ").getLastD "" ++ ", " ++
          " ".intercalate (jsSplitOn (jsTrim raw) " ").dropLast) ∧
    (∀ raw : String, (jsSplitOn (jsTrim raw) " ").length = 1 →
      Membean.transformStudentName raw = jsTrim raw) := by
  refine ⟨fun rows => rfl, ?_, ?_⟩
  · intro raw h
    simp [Membean.transformStudentName, h]
  · intro raw h
    have hne : ¬ 2 ≤ (jsSplitOn (jsTrim raw) " ").length := by omega
    simp [Membean.transformStudentName, hne]

/-- C8 (witness): the transformation theorem applied to the concrete name
"John Smith". -/
theorem supabase_name_transform_spec_witness :
    2 ≤ (jsSplitOn (jsTrim "John Smith") " ").length ∧
      Membean.transformStudentName "John Smith" =
        (jsSplitOn (jsTrim "John Smith") " ").getLastD "" ++ ", " ++
          " ".intercalate (jsSplitOn (jsTrim "John Smith") " ").dropLast :=
  ⟨by decide, supabase_name_transform_spec.2.1 "John Smith" (by decide)⟩

/-! ## Claim C9

Error records are never uploaded: the Membean transformations keep only
records with a truthy `studentName` and a falsy `error` (and the row type
they build carries no error field at all), and the AlphaRead batch upload
sends exactly the records without error data. -/

/-- C9: every row either Membean transformation uploads comes from a source
record with no (truthy) error and a non-empty student name — which the row
inherits — and the AlphaRead batch upload equals the batch upload of the
error-free records only. -/
theorem error_records_never_uploaded :
    (∀ data r, r ∈ Membean.membeanTransform data →
      ∃ s, s ∈ data ∧ optTruthy s.error = false ∧ jsTruthy s.studentName = true ∧
        r.student_name = s.studentName) ∧
    (∀ data r, r ∈ Membean.part003Transform data →
      ∃ s, s ∈ data ∧ optTruthy s.error = false ∧ jsTruthy s.studentName = true ∧
        r.student_name = s.studentName) ∧
    (∀ data r, r ∈ Membean.membeanTransform data → r.student_name ≠ "") ∧
    (∀ db nowISO students,
      AlphaRead.uploadBatchToSupabase db nowISO students =
        AlphaRead.uploadBatchToSupabase db nowISO
          (students.filter (fun s => !optTruthy s.error))) := by
  refine ⟨?_, ?_, ?_, ?_⟩
  · intro data r hr
    rcases List.mem_map.1 hr with ⟨s, hs, rfl⟩
    have hf := List.mem_filter.1 hs
    have hcond := Bool.and_eq_true_iff.1 hf.2
    exact ⟨s, hf.1, by simpa using hcond.2, hcond.1, rfl⟩
  · intro data r hr
    rcases List.mem_map.1 hr with ⟨s, hs, rfl⟩
    have hf := List.mem_filter.1 hs
    have hcond := Bool.and_eq_true_iff.1 hf.2
    exact ⟨s, hf.1, by simpa using hcond.2, hcond.1, rfl⟩
  · intro data r hr
    rcases List.mem_map.1 hr with ⟨s, hs, rfl⟩
    have hf := List.mem_filter.1 hs
    have hcond := Bool.and_eq_true_iff.1 hf.2
    exact of_decide_eq_true hcond.1
  · intro db nowISO students
    induction students generalizing db with
    | nil => rfl
    | cons s l ih =>
      cases he : optTruthy s.error with
      | true =>
        simpa [AlphaRead.uploadBatchToSupabase, List.filter_cons, he] using ih db
      | false =>
        simpa [AlphaRead.uploadBatchToSupabase, List.filter_cons, he] using
          ih (AlphaRead.uploadToSupabase db nowISO s)

/-- C9 (witness): the no-error theorem applied to a concrete upload. -/
theorem error_records_never_uploaded_witness :
    exMRow ∈ Membean.membeanTransform [exMStudent] ∧
      ∃ s, s ∈ [exMStudent] ∧ optTruthy s.error = false ∧
        jsTruthy s.studentName = true ∧ exMRow.student_name = s.studentName :=
  ⟨by decide, error_records_never_uploaded.1 [exMStudent] exMRow (by decide)⟩

/-! ## Claim C10

`getEnabledStudents` (studentsManager.js:118-148) resolves the student list
with the fallback order Supabase, `students.txt`, `students.json`, empty
list, and never throws (every failure path of the readers returns `[]`). -/

/-- C10: the fallback order of `getEnabledStudents`: the (transformed)
Supabase list when the client is configured and the list is non-empty;
otherwise the `students.txt` entries when non-empty; otherwise the enabled
`students.json` names when non-empty; otherwise `[]`; with the txt entries
being the trimmed lines that are non-empty, not `#`-comments and not the two
example names, and every read failure treated as the empty list. -/
theorem enabled_students_fallback_order :
    (∀ dbr txt json, Membean.readStudentsFromSupabase dbr ≠ [] →
      Membean.getEnabledStudents (some dbr) txt json =
        Membean.readStudentsFromSupabase dbr) ∧
    (∀ sup txt json,
      (sup = none ∨ ∃ dbr, sup = some dbr ∧ Membean.readStudentsFromSupabase dbr = []) →
      Membean.readStudentsFromTXT txt ≠ [] →
      Membean.getEnabledStudents sup txt json = Membean.readStudentsFromTXT txt) ∧
    (∀ sup txt json,
      (sup = none ∨ ∃ dbr, sup = some dbr ∧ Membean.readStudentsFromSupabase dbr = []) →
      Membean.readStudentsFromTXT txt = [] →
      Membean.readStudentsFromJSON json ≠ [] →
      Membean.getEnabledStudents sup txt json =
        (Membean.readStudentsFromJSON json).map (fun s => s.name)) ∧
    (∀ sup txt json,
      (sup = none ∨ ∃ dbr, sup = some dbr ∧ Membean.readStudentsFromSupabase dbr = []) →
      Membean.readStudentsFromTXT txt = [] →
      Membean.readStudentsFromJSON json = [] →
      Membean.getEnabledStudents sup txt json = []) ∧
    (∀ content, Membean.readStudentsFromTXT (Membean.FileSource.content content) =
      ((jsSplitOn content "\n").map jsTrim).filter
        (fun line => (line ≠ "" && !jsStartsWith line "#") &&
          (line ≠ "Student Name 1" && line ≠ "Student Name 2"))) ∧
    ((∀ msg, Membean.readStudentsFromSupabase (Except.error msg) = []) ∧
      Membean.readStudentsFromTXT Membean.FileSource.missing = [] ∧
      (∀ msg, Membean.readStudentsFromTXT (Membean.FileSource.failure msg) = []) ∧
      Membean.readStudentsFromJSON Membean.FileSource.missing = [] ∧
      (∀ msg, Membean.readStudentsFromJSON (Membean.FileSource.failure msg) = [])) := by
  refine ⟨?_, ?_, ?_, ?_, ?_, ⟨fun _ => rfl, rfl, fun _ => rfl, rfl, fun _ => rfl⟩⟩
  · intro dbr txt json h
    have hpos : 0 < (Membean.readStudentsFromSupabase dbr).length := List.length_pos.2 h
    simp [Membean.getEnabledStudents, hpos]
  · intro sup txt json hsup htxt
    have hpos : 0 < (Membean.readStudentsFromTXT txt).length := List.length_pos.2 htxt
    rcases hsup with rfl | ⟨dbr, rfl, hempty⟩
    · simp [Membean.getEnabledStudents, hpos]
    · simp [Membean.getEnabledStudents, hempty, hpos]
  · intro sup txt json hsup htxt hjson
    have hpos : 0 < (Membean.readStudentsFromJSON json).length := List.length_pos.2 hjson
    rcases hsup with rfl | ⟨dbr, rfl, hempty⟩
    · simp [Membean.getEnabledStudents, htxt, hpos]
    · simp [Membean.getEnabledStudents, hempty, htxt, hpos]
  · intro sup txt json hsup htxt hjson
    rcases hsup with rfl | ⟨dbr, rfl, hempty⟩
    · simp [Membean.getEnabledStudents, htxt, hjson]
    · simp [Membean.getEnabledStudents, hempty, htxt, hjson]
  · intro content
    simp only [Membean.readStudentsFromTXT, List.filter_filter, jsTruthy]
    refine List.filter_congr ?_
    intro x _
    cases h1 : (decide (x = "Student Name 1")) <;>
      cases h2 : (decide (x = "Student Name 2")) <;>
        cases h3 : (decide (x = "")) <;>
          cases h4 : jsStartsWith x "#" <;>
            simp [h1, h2, h3, h4]

/-- C10 (witness): the fallback theorem applied to a configured Supabase
client with one student. -/
theorem enabled_students_fallback_order_witness :
    Membean.readStudentsFromSupabase (Except.ok [{ name := "Ann Lee" }]) ≠ [] ∧
      Membean.getEnabledStudents (some (Except.ok [{ name := "Ann Lee" }]))
          Membean.FileSource.missing Membean.FileSource.missing =
        Membean.readStudentsFromSupabase (Except.ok [{ name := "Ann Lee" }]) :=
  ⟨by decide,
    enabled_students_fallback_order.1 (Except.ok [{ name := "Ann Lee" }])
      Membean.FileSource.missing Membean.FileSource.missing (by decide)⟩

/-! ## Grounding facts

A few concrete evaluations of the embedded definitions, witnessing that the
translation is executable and behaves like the JavaScript source on sample
inputs. -/

/-- Concrete evaluations of the name transformation, the extraction
patterns, and the timestamp normalization. -/
theorem grounding_examples :
    Membean.transformStudentName "John Smith" = "Smith, John" ∧
      Membean.transformStudentName "Cher" = "Cher" ∧
      Membean.transformStudentName "  Mary Jane Watson " = "Watson, Mary Jane" ∧
      AlphaRead.jsMatch1 AlphaRead.gradeLevelRe "11Grade Level" = some "11" ∧
      AlphaRead.jsMatch1 AlphaRead.lastActiveRe1 "Last ActiveJun 2Avg. Session Time" =
        some "Jun 2" ∧
      AlphaRead.jsMatchAll AlphaRead.dateGlobalRe "Jun 2 and Mar 16" = ["Jun 2", "Mar 16"] ∧
      AlphaRead.isDateToken "Jun 2" = true ∧
      AlphaRead.isDateToken "June 2" = false ∧
      AlphaRead.parseScrapedAtISO "01/02/2025, 10:03:04" "FB" = "2025-01-02T10:03:04.000Z" ∧
      AlphaRead.parseScrapedAtISO "13/02/2025, 10:03:04" "FB" = "FB" ∧
      AlphaRead.parseScrapedAtISO "junk" "FB" = "FB" ∧
      AlphaRead.jsParseInt "11" = AlphaRead.JsInt.val 11 :=
  ⟨by decide, by decide, by decide, by decide, by decide, by decide, by decide,
    by decide, by decide, by decide, by decide, by decide⟩

end Scrapers
